import Mathlib

/-!
Verification development for the `cozy_pipeline` LLM-evaluation repository.

Shallow embedding of:
  * the CSV row normalizer (`CSVReader.stream_input` in
    `llm_evaluator/infrastructure/storage.py`): option-list recovery and
    ground-truth index resolution;
  * the answer scorer (`ResponseScorer` in `llm_evaluator/service/scorer.py`):
    `parse_index` and `evaluate`;
  * per-task processing and the bounded-concurrency run loop
    (`EvaluationPipeline` in `llm_evaluator/service/pipeline.py`);
  * the retrying HTTP client (`OllamaClient.generate` in
    `llm_evaluator/infrastructure/ollama.py`);
  * the auto-tuner trial evaluation and optimization loop
    (`AutoTuner` in `llm_evaluator/infrastructure/tuner.py`).

Python machine-level caveats recorded once here: strings are treated at the
ASCII level (the regexes in the source are applied to ASCII data; Python's
`\s`, `\d`, `\w` and `str.strip`/`str.isdigit` agree with the ASCII readings
used below on such data), and floats are modelled as rationals.
-/

namespace CozyPipeline

/-! ## Python-style values produced by `ast.literal_eval` -/

/-- A Python value as produced by `ast.literal_eval` on an options field:
strings, integers, and (nested) lists.  Other literal shapes (tuples, dicts,
floats, ...) are not needed by any claim and behave like `int` for the
normalizer (a successful parse that is not a `list` leaves the working list
empty). -/
inductive PyVal where
  | str (s : String)
  | int (n : Int)
  | list (l : List PyVal)

/-- Python `==` between a string and a value of the shapes in `PyVal` (the
only comparison the normalizer performs: `clean_gt in options_list` and
`options_list.index(clean_gt)` compare the cleaned **string** against each
element): equal content for a string element, `False` for any other shape
(Python `"2" == 2` is `False`). -/
def pyEqStr (target : String) : PyVal → Bool
  | .str s => s == target
  | _ => false

/-! ## String helpers shared by the normalizer and the scorer -/

/-- ASCII whitespace, as matched by the regex class `\s` (` `, `\t`, `\n`,
`\v`, `\f`, `\r`). -/
def isPyWs (c : Char) : Bool :=
  c = ' ' || c = '\t' || c = '\n' || c = Char.ofNat 11 || c = Char.ofNat 12 || c = '\r'

/-- A word character, as matched by the regex class `\w` at the ASCII level:
letters, digits and underscore. -/
def isWordChar (c : Char) : Bool :=
  c.isAlpha || c.isDigit || c = '_'

/-- Numeric value of a digit string, as computed by Python `int` on an
all-digit string. -/
def toNatDigits (l : List Char) : Nat :=
  l.foldl (fun a c => a * 10 + (c.toNat - 48)) 0

/-- Python `str.isdigit` at the ASCII level: non-empty and all digits. -/
def isDigitStr (s : String) : Bool :=
  s ≠ "" && s.toList.all Char.isDigit

/-- Python `str.strip()` at the ASCII level: remove leading and trailing
whitespace. -/
def pyStrip (s : String) : String :=
  ⟨((s.toList.dropWhile isPyWs).reverse.dropWhile isPyWs).reverse⟩

/-- Python `c in s` for a single character. -/
def pyContains (s : String) (c : Char) : Bool :=
  s.toList.any (fun x => x = c)

/-- Python `s.split(sep)` for a one-character separator (always returns at
least one piece; `"".split(",") == [""]`). -/
def pySplitOnCharAux (c : Char) : List Char → List Char → List String
  | [], acc => [⟨acc.reverse⟩]
  | x :: rest, acc =>
    if x = c then ⟨acc.reverse⟩ :: pySplitOnCharAux c rest []
    else pySplitOnCharAux c rest (x :: acc)

/-- Python `s.split(c)`. -/
def pySplitOnChar (s : String) (c : Char) : List String :=
  pySplitOnCharAux c s.toList []

/-- Python `s[:n]`. -/
def pyTake (n : Nat) (s : String) : String := ⟨s.toList.take n⟩

/-! ## Quoted-substring scan

`re.findall(r"['\"](.*?)['\"]", options_str, re.DOTALL)` from
`CSVReader.stream_input`: each match opens at a quote character (either
kind), captures lazily up to the next quote character (either kind, newlines
included via DOTALL), and scanning resumes after the closing quote. -/

/-- Is the character one of the two quote characters of the regex class. -/
def isQuoteChar (c : Char) : Bool := c = '\'' || c = '"'

/-- One-pass scanner implementing the lazy `findall`: outside a match
(`acc = none`) it looks for an opening quote; inside a match it accumulates
the capture (in reverse) until a closing quote. An unterminated open quote
yields no further match, exactly as the regex finds none. -/
def quotedSpansAux : List Char → Option (List Char) → List String
  | [], _ => []
  | c :: rest, none =>
    if isQuoteChar c then quotedSpansAux rest (some [])
    else quotedSpansAux rest none
  | c :: rest, some acc =>
    if isQuoteChar c then ⟨acc.reverse⟩ :: quotedSpansAux rest none
    else quotedSpansAux rest (some (c :: acc))

/-- All single- or double-quoted substrings of `s`, in order. -/
def quotedSpans (s : String) : List String := quotedSpansAux s.toList none

/-! ## Option-list recovery (from `CSVReader.stream_input`)

The source computes `options_str = raw.options.strip()`, the regex matches,
and then:

* `ast.literal_eval(options_str)`: a list result is used verbatim unless it
  has exactly one element while the regex found more than one span (then the
  regex result wins); a non-list result leaves the working list empty;
* `ValueError`/`SyntaxError` from the literal parse makes the working list
  the regex result;
* an empty working list falls back to a comma split (when the text has a
  comma and no `[`), else `DataValidationError` with the first 50 characters.

`ast.literal_eval` is an external library; the embedding takes its outcome
as an explicit argument (`Except Unit PyVal`, `Unit` standing for
`ValueError`/`SyntaxError`). -/

/-- Outcome of `ast.literal_eval` on the stripped options text. -/
abbrev LitOutcome := Except Unit PyVal

/-- The shared tail of the recovery: a comma split (comma present, no `[`)
else `DataValidationError` carrying the first 50 characters of the stripped
text (`context={"raw": options_str[:50]}`). -/
def commaFallback (s : String) : Except String (List PyVal) :=
  if pyContains s ',' ∧ ¬ pyContains s '[' then
    .ok ((pySplitOnChar s ',').map (fun t => PyVal.str (pyStrip t)))
  else .error (pyTake 50 s)

/-- Option-list recovery exactly as in `CSVReader.stream_input`. -/
def recover_options (ast : LitOutcome) (rawField : String) : Except String (List PyVal) :=
  let s := pyStrip rawField
  let spans := (quotedSpans s).map PyVal.str
  let opts : List PyVal :=
    match ast with
    | .ok (.list l) => if l.length = 1 ∧ 1 < spans.length then spans else l
    | .ok _ => []
    | .error _ => spans
  if opts.length ≠ 0 then .ok opts
  else commaFallback s

/-- The option-recovery policy exactly as the specification words it
(claim C4): an ordered strategy list with first success winning:
1. literal parse used verbatim when it yields a sequence of length > 1;
2. single-element literal parse with more than one quoted span: the quoted
   spans win;
3. otherwise all quoted substrings, when any;
4. otherwise comma split (comma present, no bracket);
5. otherwise a parse error carrying the first 50 characters. -/
def specRecoverOptions (ast : LitOutcome) (rawField : String) : Except String (List PyVal) :=
  let s := pyStrip rawField
  let spans := (quotedSpans s).map PyVal.str
  let lit : Option (List PyVal) :=
    match ast with
    | .ok (.list l) => if 1 < l.length then some l else none
    | _ => none
  let litSingleOverride : Option (List PyVal) :=
    match ast with
    | .ok (.list l) => if l.length = 1 ∧ 1 < spans.length then some spans else none
    | _ => none
  let quoted : Option (List PyVal) := if spans.length ≠ 0 then some spans else none
  match lit <|> litSingleOverride <|> quoted with
  | some o => .ok o
  | none => commaFallback s

/-- The recovery policy as the amended claim words it (corrected C4), as an
ordered strategy list: a literal parse yielding a non-empty list is used
verbatim — single-element lists included — unless it is single-element and
the quoted scan found more than one span, in which case the scan result is
preferred; the quoted-substring extraction applies only when the literal
parse raises; an empty working list (non-list literal, empty literal list,
or no span found on a raising parse) falls back to the comma split, else the
parse error. -/
def amendedRecoverOptions (ast : LitOutcome) (rawField : String) : Except String (List PyVal) :=
  let s := pyStrip rawField
  let spans := (quotedSpans s).map PyVal.str
  let stratLiteral : Option (List PyVal) :=
    match ast with
    | .ok (.list l) =>
      if l.length ≠ 0 ∧ ¬ (l.length = 1 ∧ 1 < spans.length) then some l else none
    | _ => none
  let stratQuotedOverride : Option (List PyVal) :=
    match ast with
    | .ok (.list l) => if l.length = 1 ∧ 1 < spans.length then some spans else none
    | _ => none
  let stratQuotedOnRaise : Option (List PyVal) :=
    match ast with
    | .error _ => if spans.length ≠ 0 then some spans else none
    | _ => none
  match stratLiteral <|> stratQuotedOverride <|> stratQuotedOnRaise with
  | some o => .ok o
  | none => commaFallback s

/-! ## Ground-truth column lookup (from `CSVReader.stream_input`)

The reader strips every header name (`reader.fieldnames = [name.strip() for
name in reader.fieldnames]`), and `csv.DictReader` builds each row dict by
zipping the (trimmed) headers with the cell values — a duplicated header
keeps the last column.  `gt_raw` is then
`row.get("ground_truth") or row.get("ground_truth_index") or row.get("answer")`,
Python `or` returning the first truthy operand (a non-empty string) and the
last operand when all are falsy. -/

/-- Row-dict lookup after header trimming; the last pair with the given
trimmed header wins, mirroring dict construction from zipped columns. -/
def getCol (row : List (String × String)) (key : String) : Option String :=
  ((row.map (fun p => (pyStrip p.1, p.2))).reverse.find? (fun p => p.1 == key)).map
    (fun p => p.2)

/-- Python truthiness of an optional string: `None` and `""` are falsy. -/
def truthyStr : Option String → Bool
  | none => false
  | some s => s ≠ ""

/-- Python `a or b`. -/
def pyOr (a b : Option String) : Option String := if truthyStr a then a else b

/-- The raw ground-truth value exactly as in `CSVReader.stream_input`. -/
def gt_raw (row : List (String × String)) : Option String :=
  pyOr (getCol row "ground_truth")
    (pyOr (getCol row "ground_truth_index") (getCol row "answer"))

/-- The lookup as claim C6 words it: the first **present** candidate column
wins, even when its value is empty. -/
def specGtRaw (row : List (String × String)) : Option String :=
  (getCol row "ground_truth") <|> (getCol row "ground_truth_index") <|>
    (getCol row "answer")

/-- First candidate value that is present and non-empty; when none is, the
given default (the last candidate's raw lookup). -/
def firstNonEmptyValue : List (Option String) → Option String → Option String
  | [], dflt => dflt
  | v :: vs, dflt => if truthyStr v then v else firstNonEmptyValue vs dflt

/-- The lookup as the amended claim C6 words it: the first candidate with a
present **non-empty** value wins; with no non-empty candidate the result is
the `answer` column's raw lookup. -/
def amendedGtRaw (row : List (String × String)) : Option String :=
  firstNonEmptyValue
    [getCol row "ground_truth", getCol row "ground_truth_index"]
    (getCol row "answer")

/-! ## Ground-truth index resolution (from `CSVReader.stream_input`) -/

/-- First index of an option equal (Python `==`) to the target string, as
computed by `options_list.index` after the `in` test. -/
def indexOfPy (target : String) : List PyVal → Option Nat
  | [] => none
  | v :: vs => if pyEqStr target v then some 0 else (indexOfPy target vs).map (· + 1)

/-- The cleaning step of `CSVReader.stream_input`'s ground-truth handling:
`str(raw.ground_truth).strip()`, truncated at the first dot when one is
present (`clean_gt.split(".")[0]`). -/
def cleanGt (g : String) : String :=
  let c0 := pyStrip g
  if pyContains c0 '.' then (pySplitOnChar c0 '.').headD "" else c0

/-- Ground-truth index resolution exactly as in `CSVReader.stream_input`:
skip falsy raw values, clean, try an exact match against the option list,
else treat an all-digit value as an index and range-check it (out of range
is logged and dropped). -/
def resolve_gt_index : Option String → List PyVal → Option Int
  | none, _ => none
  | some g, options =>
    if g = "" then none
    else
      let c := cleanGt g
      match indexOfPy c options with
      | some i => some (i : Int)
      | none =>
        if isDigitStr c then
          let idx : Int := (toNatDigits c.toList : Int)
          if 0 ≤ idx ∧ idx < options.length then some idx else none
        else none

/-! ## Answer extraction (`ResponseScorer.parse_index`)

`_ANSWER_PATTERN = re.compile(r"ANSWER\s*[:\-]?\s*(\d+)", re.IGNORECASE)`;
`parse_index` returns the first match's integer, else the last
`\b(\d+)\b` token, else `-1`. -/

/-- ASCII lower-casing, as performed by `re.IGNORECASE` on ASCII input. -/
def charLower (c : Char) : Char :=
  if 'A' ≤ c ∧ c ≤ 'Z' then Char.ofNat (c.toNat + 32) else c

/-- Consume the literal word `answer` case-insensitively, returning the
remaining characters. -/
def stripAnswerCI (l : List Char) : Option (List Char) :=
  match l with
  | c1 :: c2 :: c3 :: c4 :: c5 :: c6 :: rest =>
    if [c1, c2, c3, c4, c5, c6].map charLower = ['a', 'n', 's', 'w', 'e', 'r']
    then some rest else none
  | _ => none

/-- Try the pattern `ANSWER\s*[:\-]?\s*(\d+)` anchored at this position:
optional whitespace, one optional `:` or `-`, optional whitespace, then a
greedy run of digits.  (The greedy `\s*` never eats a `:`/`-`/digit, and a
consumed punctuation character could never be a digit, so no backtracking
arises.) -/
def matchAnswerAt (l : List Char) : Option Nat :=
  match stripAnswerCI l with
  | none => none
  | some rest =>
    let r1 := rest.dropWhile isPyWs
    let r2 := match r1 with
      | c :: t => if c = ':' ∨ c = '-' then t else r1
      | [] => r1
    let r3 := r2.dropWhile isPyWs
    let ds := r3.takeWhile Char.isDigit
    if ds.length ≠ 0 then some (toNatDigits ds) else none

/-- `re.search` of the answer pattern: first (leftmost) position where the
pattern matches. -/
def answerSearch : List Char → Option Nat
  | [] => none
  | c :: rest =>
    match matchAnswerAt (c :: rest) with
    | some n => some n
    | none => answerSearch rest

/-- `re.findall(r"\b(\d+)\b", text)` as integers: maximal digit runs whose
neighbours (when any) are non-word characters.  The scanner carries whether
the previous character was a word character (for the left boundary) and the
current digit run (reversed). -/
def intTokensAux : List Char → Bool → Option (List Char) → List Nat
  | [], _, none => []
  | [], _, some acc => [toNatDigits acc.reverse]
  | c :: rest, prevWord, none =>
    if c.isDigit && !prevWord then intTokensAux rest true (some [c])
    else intTokensAux rest (isWordChar c) none
  | c :: rest, _, some acc =>
    if c.isDigit then intTokensAux rest true (some (c :: acc))
    else if isWordChar c then intTokensAux rest true none
    else toNatDigits acc.reverse :: intTokensAux rest false none

/-- All standalone integer tokens of the text, in order. -/
def intTokens (l : List Char) : List Nat := intTokensAux l false none

/-- `ResponseScorer.parse_index`: `-1` on an empty text, else the integer of
the first answer-pattern match, else the last standalone integer token, else
`-1`. -/
def parse_index (raw_output : String) : Int :=
  if raw_output = "" then -1
  else
    match answerSearch raw_output.toList with
    | some n => (n : Int)
    | none =>
      match (intTokens raw_output.toList).getLast? with
      | some n => (n : Int)
      | none => -1

/-- `ResponseScorer.evaluate`: `False` whenever ground truth is absent, else
strict equality. -/
def evaluate (parsed_index : Int) (ground_truth_index : Option Int) : Bool :=
  match ground_truth_index with
  | none => false
  | some g => parsed_index == g

/-! ## Data model (`llm_evaluator/domain/models.py`)

`uuid.UUID` task ids are modelled as `Nat`; float latencies as `ℚ`. -/

/-- `EvaluationTask` (the prompt text is opaque to every claim and omitted). -/
structure EvaluationTask where
  id : Nat
  question : String
  options : List String
  category : String
  ground_truth_index : Option Int
deriving DecidableEq

/-- `LLMResponse`. -/
structure LLMResponse where
  raw_content : String
  prompt_tokens : Nat := 0
  completion_tokens : Nat := 0
  total_duration_ns : Nat := 0
  client_latency_ms : ℚ := 0
deriving DecidableEq

/-- `EvaluationResult` (the fields written by `to_csv_row`). -/
structure EvaluationResult where
  task_id : Nat
  category : String
  raw_llm_output : String
  parsed_index : Int
  ground_truth_index : Option Int
  is_correct : Bool
  latency_ms : ℚ
  model_name : String
deriving DecidableEq

/-- `settings.MODEL_NAME` default. -/
def modelName : String := "qwen2.5:7b-instruct"

/-! ## Per-task processing (`EvaluationPipeline.process_single_task`)

The generation call's outcome is passed explicitly: `Except String
LLMResponse`, the error text standing for `str(e)` of whatever exception the
body raised (generation, scoring or construction — everything sits inside
the one `try`). -/

/-- `EvaluationPipeline.process_single_task`: a total function — every
outcome, success or error, becomes a well-formed `EvaluationResult`. -/
def process_single_task (task : EvaluationTask) (gen : Except String LLMResponse) :
    EvaluationResult :=
  match gen with
  | .ok r =>
    let parsed := parse_index r.raw_content
    { task_id := task.id
      category := task.category
      raw_llm_output := r.raw_content
      parsed_index := parsed
      ground_truth_index := task.ground_truth_index
      is_correct := evaluate parsed task.ground_truth_index
      latency_ms := r.client_latency_ms
      model_name := modelName }
  | .error e =>
    { task_id := task.id
      category := task.category
      raw_llm_output := "ERROR: " ++ e
      parsed_index := -1
      ground_truth_index := task.ground_truth_index
      is_correct := false
      latency_ms := 0
      model_name := modelName }

/-! ## The bounded-concurrency run loop (`EvaluationPipeline.run`)

The loop keeps a set of in-flight tasks.  For each task pulled from the
source: if the set has reached `CONCURRENCY_LIMIT`, it awaits
`asyncio.wait(..., FIRST_COMPLETED)`, harvests every completed task
(`handle_result`), and then admits the new task; after source exhaustion it
awaits `ALL_COMPLETED` and harvests the rest.

Concurrency is abstracted by a completion schedule `sched : Nat → Nat`
selecting which in-flight element completes at each wait (the wait may
report several completed tasks; that run is the composition of such
single-completion steps, and the set-iteration order inside one harvest is
itself unspecified).  Since `process_single_task` is total and deterministic
the in-flight elements are carried directly as their eventual results.  The
model is used with `0 < C` (with `C = 0` the source would await an empty
set, a `ValueError`). -/

/-- The run loop: returns the list of results handed to the sink, in
completion order.  `n` counts scheduling steps. -/
def engineRun {α : Type} (C : Nat) (sched : Nat → Nat) :
    Nat → List α → List α → List α
  | _, [], pending => pending
  | n, t :: queue, pending =>
    if C ≤ pending.length then
      let i := sched n % pending.length
      match pending[i]? with
      | some r => r :: engineRun C sched (n + 1) queue (pending.eraseIdx i ++ [t])
      | none => engineRun C sched (n + 1) queue (pending ++ [t])
    else engineRun C sched (n + 1) queue (pending ++ [t])

/-- Instrumented variant: the in-flight set's size immediately after each
admission, plus the size entering the final drain — the peaks of the
in-flight population over the run. -/
def engineSizes {α : Type} (C : Nat) (sched : Nat → Nat) :
    Nat → List α → List α → List Nat
  | _, [], pending => [pending.length]
  | n, t :: queue, pending =>
    if C ≤ pending.length then
      let i := sched n % pending.length
      match pending[i]? with
      | some _ =>
        let p := pending.eraseIdx i ++ [t]
        p.length :: engineSizes C sched (n + 1) queue p
      | none =>
        let p := pending ++ [t]
        p.length :: engineSizes C sched (n + 1) queue p
    else
      let p := pending ++ [t]
      p.length :: engineSizes C sched (n + 1) queue p

/-! ## The retrying HTTP client (`OllamaClient.generate`)

`max_retries = 3`; the loop body posts the request and
  * on success returns the parsed `LLMResponse`;
  * on `httpx.ReadTimeout` or `httpx.ConnectError` sleeps 5 s and retries,
    raising `LLMConnectionError` (with the attempt count) when the failed
    attempt was the last;
  * on `httpx.HTTPStatusError` (non-2xx after `raise_for_status`) raises
    `LLMConnectionError` with the status code immediately;
  * any other exception — in particular `httpx.ConnectTimeout`, which is a
    `TimeoutException`, not a `ReadTimeout` and not a `NetworkError`, so it
    is **not** matched by `except (httpx.ReadTimeout, httpx.ConnectError)` —
    propagates out of `generate` uncaught.

One attempt's outcome is an `AttemptOutcome`; a client behaviour is the
function from attempt number to outcome. -/

/-- What one HTTP attempt does. -/
inductive AttemptOutcome (α : Type) where
  | ok (resp : α)
  | readTimeout
  | connectError
  | connectTimeout
  | status (code : Nat)

/-- How `generate` ends, with the accumulated `asyncio.sleep` delay in
seconds. -/
inductive GenOutcome (α : Type) where
  | success (resp : α) (delay : Nat)
  | connErrorRetries (attempts : Nat) (delay : Nat)
  | connErrorStatus (code : Nat) (delay : Nat)
  | uncaught (exc : String) (delay : Nat)
deriving DecidableEq

/-- `max_retries` in `OllamaClient.generate`. -/
def maxRetries : Nat := 3

/-- The retry loop; `fuel` is the number of remaining loop iterations
(`range(max_retries)` runs the body exactly `maxRetries` times; the `fuel = 0`
case is unreachable because the last attempt raises instead of sleeping). -/
def generateGo {α : Type} (o : Nat → AttemptOutcome α) :
    Nat → Nat → Nat → GenOutcome α
  | 0, _, delay => .connErrorRetries maxRetries delay
  | fuel + 1, attempt, delay =>
    match o attempt with
    | .ok r => .success r delay
    | .readTimeout | .connectError =>
      if attempt = maxRetries - 1 then .connErrorRetries maxRetries delay
      else generateGo o fuel (attempt + 1) (delay + 5)
    | .status c => .connErrorStatus c delay
    | .connectTimeout => .uncaught "httpx.ConnectTimeout" delay

/-- `OllamaClient.generate` under a given client behaviour. -/
def generate {α : Type} (o : Nat → AttemptOutcome α) : GenOutcome α :=
  generateGo o maxRetries 0 0

/-! ## The per-trial semaphore (`AutoTuner._process_single_task`)

Every tuning task runs `async with semaphore:` around its body, the
semaphore being `asyncio.Semaphore(concurrency_limit)` created per trial.
`asyncio.Semaphore`'s counter semantics: construction sets the counter to
`C`; `acquire` suspends until the counter is positive and decrements it;
`release` increments it.  Tasks are identified by `Nat`. -/

/-- State of one trial batch: the semaphore counter, tasks not yet started,
tasks inside the `async with` block, finished tasks. -/
structure SemState where
  counter : Nat
  waiting : List Nat
  holding : List Nat
  finished : List Nat
deriving DecidableEq

/-- One scheduler step of the trial batch. -/
inductive SemStep : SemState → SemState → Prop where
  | acquire (s : SemState) (t : Nat) (hc : 0 < s.counter) (ht : t ∈ s.waiting) :
    SemStep s ⟨s.counter - 1, s.waiting.erase t, t :: s.holding, s.finished⟩
  | release (s : SemState) (t : Nat) (ht : t ∈ s.holding) :
    SemStep s ⟨s.counter + 1, s.waiting, s.holding.erase t, t :: s.finished⟩

/-- Initial state of a trial over the given task ids. -/
def semInit (C : Nat) (tasks : List Nat) : SemState := ⟨C, tasks, [], []⟩

/-- States a trial batch can reach. -/
inductive SemReachable (C : Nat) (tasks : List Nat) : SemState → Prop where
  | init : SemReachable C tasks (semInit C tasks)
  | step {s s' : SemState} : SemReachable C tasks s → SemStep s s' →
      SemReachable C tasks s'

/-! ## The auto-tuner (`AutoTuner`)

`_process_single_task` catches every per-task exception and scores it as the
penalty sentinel; `_evaluate_trial_async` gathers the batch and reduces it to
`accuracy * 1000 - avg_latency / 1000`, where
`accuracy = correct_count / len(self.sample_tasks)` raises
`ZeroDivisionError` when the sample is empty.  `objective_wrapper` calls
`future.result()` with no exception handling, so a trial-level exception
reaches the optimizer; `optuna.Study.optimize` is run without `catch`, whose
documented default marks the trial failed, re-raises, and stops the study.
One trial's data is the sample: for each task its ground truth and the
generation outcome it would observe. -/

/-- A tuning response (the fields `_process_single_task` reads). -/
structure TunerResp where
  raw_content : String
  client_latency_ms : ℚ
deriving DecidableEq

/-- `AutoTuner._process_single_task` under the semaphore: total; an error
becomes `is_correct = False`, `latency = 10000.0`. -/
def tuner_process_single_task (gt : Option Int) (gen : Except String TunerResp) :
    Bool × ℚ :=
  match gen with
  | .ok r => (evaluate (parse_index r.raw_content) gt, r.client_latency_ms)
  | .error _ => (false, 10000)

/-- One trial's sample: per task, ground truth and generation outcome. -/
abbrev TrialData := List (Option Int × Except String TunerResp)

/-- `AutoTuner._evaluate_trial_async`: the reduced scalar score, or the
exception the trial body raises (`ZeroDivisionError` on an empty sample). -/
def evaluate_trial (sample : TrialData) : Except String ℚ :=
  let results := sample.map (fun p => tuner_process_single_task p.1 p.2)
  if sample.length = 0 then .error "ZeroDivisionError"
  else
    let correct : ℚ := (results.filter (fun r => r.1)).length
    let lats := results.map (fun r => r.2)
    let accuracy : ℚ := correct / sample.length
    let avgLatency : ℚ := if lats.length = 0 then 0 else lats.sum / lats.length
    .ok (accuracy * 1000 - avgLatency / 1000)

/-- The optimization loop over the planned trials: each trial's objective is
`evaluate_trial` (the `objective_wrapper` / `future.result()` bridge adds no
handling), and — per `optuna`'s default — an exception aborts the study. -/
def study_optimize : List TrialData → Except String (List ℚ)
  | [] => .ok []
  | t :: ts =>
    match evaluate_trial t with
    | .error e => .error e
    | .ok sc =>
      match study_optimize ts with
      | .error e => .error e
      | .ok rest => .ok (sc :: rest)

/-- The loop as claim C1 words it: an exception from the concurrent side is
scored as zero and the study always completes every trial. -/
def specStudyOptimize (ts : List TrialData) : List ℚ :=
  ts.map (fun t =>
    match evaluate_trial t with
    | .error _ => 0
    | .ok sc => sc)

/-- Boolean success test for a trial outcome. -/
def exceptOk {ε α : Type} : Except ε α → Bool
  | .ok _ => true
  | .error _ => false

/-- Boolean test: did `generate` end in an `LLMConnectionError`? -/
def GenOutcome.isConnError {α : Type} : GenOutcome α → Bool
  | .connErrorRetries _ _ => true
  | .connErrorStatus _ _ => true
  | _ => false

/-! ## Theorems -/

/-- C7: `parse_index` extracts the integer of the first case-insensitive
`ANSWER` (+ optional punctuation) match when one exists — in the second
example the first such match is `ANSWER: 5`, not the earlier `answer is`
words, because `is` blocks the pattern there — else falls back to the last
standalone integer token, else `-1`. -/
theorem C7_parse_index :
    parse_index "... ANSWER: 3" = 3 ∧
    parse_index "The answer is 2, not 5. ANSWER: 5" = 5 ∧
    parse_index "no answer given" = -1 ∧
    parse_index "I'd pick 4" = 4 := by
  refine ⟨by decide, by decide, by decide, by decide⟩

/-- C10: `parse_index` never returns a negative value other than `-1`, and
it performs no upper-bound check: on output `ANSWER: 7` it returns `7`, at
least the length of a three-option task's option list. -/
theorem C10_parse_index_range :
    (∀ s : String, parse_index s = -1 ∨ 0 ≤ parse_index s) ∧
    parse_index "ANSWER: 7" = 7 ∧
    ((["A", "B", "C"] : List String).length : Int) ≤ parse_index "ANSWER: 7" := by
  refine ⟨?_, by decide, by decide⟩
  intro s
  unfold parse_index
  split
  · exact Or.inl rfl
  · split
    · exact Or.inr (Int.ofNat_nonneg _)
    · split
      · exact Or.inr (Int.ofNat_nonneg _)
      · exact Or.inl rfl

/-- C8: any error during generation or scoring becomes a well-formed
`EvaluationResult` with sentinel index `-1`, `is_correct = false` and the
error text embedded in the raw output; `process_single_task` is total, so
the error never propagates to the run loop. -/
theorem C8_error_isolation :
    ∀ (t : EvaluationTask) (e : String),
      (process_single_task t (.error e)).parsed_index = -1 ∧
      (process_single_task t (.error e)).is_correct = false ∧
      (process_single_task t (.error e)).raw_llm_output = "ERROR: " ++ e :=
  fun _ _ => ⟨rfl, rfl, rfl⟩

/-- C2 counterexample: a client that always fails with **connect timeout**
(`httpx.ConnectTimeout`) does not yield an `LLMConnectionError` after three
attempts and ten seconds of delay, as the claim states; the exception is not
matched by `except (httpx.ReadTimeout, httpx.ConnectError)` and propagates
uncaught on the first attempt with zero accumulated delay. -/
theorem C2_counterexample :
    generate (fun _ => (.connectTimeout : AttemptOutcome Nat)) =
      .uncaught "httpx.ConnectTimeout" 0 ∧
    (generate (fun _ => (.connectTimeout : AttemptOutcome Nat))).isConnError = false :=
  ⟨rfl, rfl⟩

/-- C2 as amended: the retried classes are read timeout and connect refused
(`httpx.ReadTimeout`, `httpx.ConnectError`) — up to 3 attempts with a fixed
5-second delay, so two such failures then a success yield the response with
10 s of accumulated delay, and a client that always read-times-out fails
with `LLMConnectionError` after exactly 3 attempts and 10 s of delay; a
non-2xx status fails immediately with `LLMConnectionError` and is never
retried (even when a retry would have succeeded); a connect timeout
propagates uncaught on the first attempt. -/
theorem C2_retry_policy (α : Type) (r : α) (c : Nat) :
    generate (fun n => match n with
      | 0 => .readTimeout
      | 1 => .connectError
      | _ => .ok r) = .success r 10 ∧
    generate (fun _ => (.readTimeout : AttemptOutcome α)) = .connErrorRetries 3 10 ∧
    generate (fun n => if n = 0 then .status c else .ok r) = .connErrorStatus c 0 ∧
    generate (fun n => if n = 0 then .connectTimeout else .ok r) =
      .uncaught "httpx.ConnectTimeout" 0 :=
  ⟨rfl, rfl, rfl, rfl⟩

/-- C1 counterexample: in a two-trial study over an empty sample (every
trial shares `self.sample_tasks`), the first trial's concurrent-side
evaluation raises (`ZeroDivisionError` from
`accuracy = correct_count / len(self.sample_tasks)`), and the optimization
aborts — the second trial never runs and no best configuration is produced —
instead of the exception being scored as zero with the study completing its
remaining trials, as the claim states (the spec-worded loop
`specStudyOptimize` would complete both trials). -/
theorem C1_counterexample :
    study_optimize [[], []] = .error "ZeroDivisionError" ∧
    (specStudyOptimize [[], []]).length = 2 := by
  refine ⟨rfl, rfl⟩

/-- C1 as amended: a **per-task** exception inside a trial is converted to
the penalty outcome (`is_correct = False`, `latency = 10000.0`), so a trial
over a non-empty sample always produces a score however many tasks fail;
but an exception raised by the trial-level evaluation itself (such as
`ZeroDivisionError` on an empty sample) propagates uncaught through
`future.result()` into the optimizer and aborts the study — it is not scored
as zero. -/
theorem C1_trial_failure_policy :
    (∀ (gt : Option Int) (e : String),
        tuner_process_single_task gt (.error e) = (false, 10000)) ∧
    (∀ sample : TrialData, sample ≠ [] → exceptOk (evaluate_trial sample) = true) ∧
    (∀ ts : List TrialData, study_optimize ([] :: ts) = .error "ZeroDivisionError") := by
  refine ⟨fun _ _ => rfl, ?_, fun _ => rfl⟩
  intro sample hne
  unfold evaluate_trial
  have : sample.length ≠ 0 := fun h => hne (List.length_eq_zero.mp h)
  simp only [this, if_false, ite_false, exceptOk]

/-- Witness for `C1_trial_failure_policy`: a one-task trial whose only task
errors still yields a score. -/
theorem C1_trial_failure_policy_witness :
    ([(some 0, Except.error "boom")] : TrialData) ≠ [] ∧
    exceptOk (evaluate_trial [(some 0, Except.error "boom")]) = true :=
  ⟨by simp, C1_trial_failure_policy.2.1 [(some 0, Except.error "boom")] (by simp)⟩

/-- C6 counterexample: with a present-but-empty `ground_truth` column and an
`answer` column holding `"2"`, the code reads `"2"` from `answer` (Python
`or` skips falsy values), while the claim's first-present-column rule would
read the empty `ground_truth` value. -/
theorem C6_counterexample :
    gt_raw [("ground_truth", ""), ("answer", "2")] = some "2" ∧
    specGtRaw [("ground_truth", ""), ("answer", "2")] = some "" ∧
    (some "2" : Option String) ≠ some "" := by
  refine ⟨by decide, by decide, by decide⟩

/-- C6 as amended: the ground-truth value is read from the candidate columns
`ground_truth`, `ground_truth_index`, `answer` with the first present
**non-empty** value winning (a present-but-empty candidate is skipped; when
no candidate is non-empty the result is the `answer` column's raw lookup),
and header names are trimmed of surrounding whitespace before lookup. -/
theorem C6_gt_column_fallback :
    (∀ row : List (String × String), gt_raw row = amendedGtRaw row) ∧
    (∀ (h : String) (v key : String),
        getCol [(h, v)] key = if pyStrip h == key then some v else none) := by
  constructor
  · intro row
    simp [gt_raw, amendedGtRaw, firstNonEmptyValue, pyOr]
  · intro h v key
    simp only [getCol, List.map, List.reverse_singleton, List.find?]
    cases hk : pyStrip h == key <;> simp [hk]

/-- C4 counterexample: on the raw options field `"'A, B'"` the literal parse
succeeds with the **string** `A, B` (not a list), and the code then skips
the quoted-substring scan entirely and comma-splits, yielding the two
options `'A` and `B'`; the claim's strategy order would apply the
quoted-substring scan (one span, `A, B`) and yield one option. -/
theorem C4_counterexample :
    recover_options (.ok (.str "A, B")) "'A, B'" =
      .ok [PyVal.str "'A", PyVal.str "B'"] ∧
    specRecoverOptions (.ok (.str "A, B")) "'A, B'" = .ok [PyVal.str "A, B"] ∧
    ([PyVal.str "'A", PyVal.str "B'"] : List PyVal) ≠ [PyVal.str "A, B"] := by
  refine ⟨rfl, rfl, ?_⟩
  intro h
  simpa using congrArg List.length h

/-- C4 as amended: the recovery is the ordered strategy list of
`amendedRecoverOptions` — a literal parse yielding a non-empty list is used
verbatim (single-element lists with at most one quoted span included),
except that a single-element literal list with more than one quoted span is
replaced by the quoted spans; the quoted-substring extraction applies only
when the literal parse raises; an empty working list falls back to the
comma split (comma present, no bracket) and otherwise to the `ParseError`
carrying the first 50 characters. -/
theorem C4_option_recovery :
    ∀ (ast : LitOutcome) (s : String),
      recover_options ast s = amendedRecoverOptions ast s := by
  intro ast s
  cases ast with
  | error u =>
    simp only [recover_options, amendedRecoverOptions]
    by_cases hsp : (quotedSpans (pyStrip s)).length = 0
    · simp [hsp, List.length_eq_zero.mp hsp]
    · simp [hsp]
  | ok v =>
    cases v with
    | str a => simp [recover_options, amendedRecoverOptions]
    | int n => simp [recover_options, amendedRecoverOptions]
    | list l =>
      simp only [recover_options, amendedRecoverOptions]
      by_cases hone : l.length = 1 ∧ 1 < (quotedSpans (pyStrip s)).length
      · have hsp : (quotedSpans (pyStrip s)).length ≠ 0 := by omega
        simp [hone, hsp]
      · by_cases hl : l.length = 0
        · simp [hone, hl, List.length_eq_zero.mp hl]
        · simp [hone, hl]

/-- First index where `indexOfPy` hits is inside the list. -/
theorem indexOfPy_lt_length (t : String) :
    ∀ (l : List PyVal) (i : Nat), indexOfPy t l = some i → i < l.length := by
  intro l
  induction l with
  | nil => intro i h; simp [indexOfPy] at h
  | cons v vs ih =>
    intro i h
    simp only [indexOfPy] at h
    by_cases hv : pyEqStr t v
    · simp only [hv, if_true, ite_true] at h
      cases h
      simp
    · simp only [hv, if_false, ite_false] at h
      cases hj : indexOfPy t vs with
      | none => rw [hj] at h; simp at h
      | some j =>
        rw [hj] at h
        simp at h
        subst h
        have := ih j hj
        simp only [List.length_cons]
        omega

/-- C5: whenever the normalizer resolves a ground-truth index (exact match
against the option list first, else an all-digit value range-checked), the
index satisfies `0 ≤ index < number of options`; an out-of-range integer is
dropped rather than raised (concrete instance: ground truth `5` against a
one-option list resolves to no index at all). -/
theorem C5_gt_index_in_range :
    (∀ (gtv : Option String) (options : List PyVal) (i : Int),
        resolve_gt_index gtv options = some i →
        0 ≤ i ∧ i < options.length) ∧
    resolve_gt_index (some "5") [PyVal.str "A"] = none := by
  refine ⟨?_, by decide⟩
  intro gtv options i h
  cases gtv with
  | none => simp [resolve_gt_index] at h
  | some g =>
    simp only [resolve_gt_index] at h
    by_cases hg : g = ""
    · rw [if_pos hg] at h; exact absurd h (by simp)
    · rw [if_neg hg] at h
      cases hidx : indexOfPy (cleanGt g) options with
      | some j =>
        rw [hidx] at h
        simp only [Option.some_inj] at h
        subst h
        have := indexOfPy_lt_length _ _ _ hidx
        constructor
        · exact Int.ofNat_nonneg _
        · exact_mod_cast this
      | none =>
        rw [hidx] at h
        by_cases hdig : isDigitStr (cleanGt g) = true
        · simp only [hdig, if_true, ite_true] at h
          split at h
          · simp only [Option.some_inj] at h
            subst h
            assumption
          · exact absurd h (by simp)
        · simp only [Bool.not_eq_true] at hdig
          simp [hdig] at h

/-- Witness for `C5_gt_index_in_range`: ground truth `"1"` against two
options resolves to index 1, and the theorem places it in `[0, 2)`. -/
theorem C5_gt_index_in_range_witness :
    resolve_gt_index (some "1") [PyVal.str "A", PyVal.str "B"] = some 1 ∧
    (0 ≤ (1 : Int) ∧
      (1 : Int) < ([PyVal.str "A", PyVal.str "B"] : List PyVal).length) :=
  ⟨by decide, C5_gt_index_in_range.1 (some "1") [PyVal.str "A", PyVal.str "B"] 1 (by decide)⟩

/-- Removing the element a wait completed and putting it in front recovers
the in-flight list up to permutation. -/
theorem cons_eraseIdx_perm {α : Type} :
    ∀ (l : List α) (i : Nat) (r : α), l[i]? = some r →
      (r :: l.eraseIdx i).Perm l := by
  intro l
  induction l with
  | nil => intro i r h; simp at h
  | cons a t ih =>
    intro i r h
    cases i with
    | zero =>
      simp at h
      subst h
      simp [List.eraseIdx]
    | succ j =>
      simp at h
      have hp := ih j r h
      exact (List.Perm.swap a r _).trans (hp.cons a)

/-- The run loop emits a permutation of the in-flight results followed by
the queued ones, whatever the completion schedule does. -/
theorem engineRun_perm {α : Type} (C : Nat) (sched : Nat → Nat) :
    ∀ (queue pending : List α) (n : Nat),
      (engineRun C sched n queue pending).Perm (pending ++ queue) := by
  intro queue
  induction queue with
  | nil => intro pending n; simp [engineRun]
  | cons t q ih =>
    intro pending n
    by_cases hc : C ≤ pending.length
    · rw [engineRun, if_pos hc]
      cases hp : pending[sched n % pending.length]? with
      | some r =>
        simp only [hp]
        have h1 := ih (pending.eraseIdx (sched n % pending.length) ++ [t]) (n + 1)
        refine (h1.cons r).trans ?_
        have h2 := (cons_eraseIdx_perm pending (sched n % pending.length) r hp).append_right
          (t :: q)
        simpa [List.append_assoc] using h2
      | none =>
        simp only [hp]
        have h1 := ih (pending ++ [t]) (n + 1)
        have h2 : ((pending ++ [t]) ++ q).Perm (pending ++ t :: q) := by simp
        exact h1.trans h2
    · rw [engineRun, if_neg hc]
      have h1 := ih (pending ++ [t]) (n + 1)
      have h2 : ((pending ++ [t]) ++ q).Perm (pending ++ t :: q) := by simp
      exact h1.trans h2

/-- A sample task/outcome pair for the completion-order demonstration. -/
def demoPair (k : Nat) : EvaluationTask × Except String LLMResponse :=
  (⟨k, "q", ["A", "B"], "cat", some 0⟩, .ok ⟨"ANSWER: 0", 0, 0, 0, (k : ℚ)⟩)

/-- Result of processing the `k`-th demo pair (distinct results for distinct
`k`, via the latency field). -/
def demoResult (k : Nat) : EvaluationResult :=
  process_single_task (demoPair k).1 (demoPair k).2

/-- C3: a run over the admitted tasks hands the sink exactly one
`EvaluationResult` per task — the emission is a permutation of the results
of all admitted tasks, however many fail and whatever the completion
schedule — and the emission order is the completion order, not the
submission order: with ceiling 2 and a schedule completing the second
in-flight task first, three tasks are emitted as `[1, 0, 2]`. -/
theorem C3_one_result_per_task (C : Nat) (hC : 0 < C) (sched : Nat → Nat)
    (tasks : List (EvaluationTask × Except String LLMResponse)) :
    (engineRun C sched 0 (tasks.map fun p => process_single_task p.1 p.2) []).Perm
      (tasks.map fun p => process_single_task p.1 p.2) ∧
    engineRun 2 (fun _ => 1) 0 [demoResult 0, demoResult 1, demoResult 2] [] =
      [demoResult 1, demoResult 0, demoResult 2] ∧
    [demoResult 1, demoResult 0, demoResult 2] ≠
      [demoResult 0, demoResult 1, demoResult 2] := by
  refine ⟨?_, by decide, by decide⟩
  simpa using engineRun_perm C sched (tasks.map fun p => process_single_task p.1 p.2) [] 0

/-- Witness for `C3_one_result_per_task` at ceiling 1 over one erroring
task. -/
theorem C3_one_result_per_task_witness :
    0 < 1 ∧
    ((engineRun 1 (fun _ => 0) 0
        ([(⟨0, "q", ["A"], "c", none⟩, Except.error "boom")].map
          fun p => process_single_task p.1 p.2) []).Perm
      ([((⟨0, "q", ["A"], "c", none⟩ : EvaluationTask), Except.error "boom")].map
        fun p => process_single_task p.1 p.2) ∧
    engineRun 2 (fun _ => 1) 0 [demoResult 0, demoResult 1, demoResult 2] [] =
      [demoResult 1, demoResult 0, demoResult 2] ∧
    [demoResult 1, demoResult 0, demoResult 2] ≠
      [demoResult 0, demoResult 1, demoResult 2]) :=
  ⟨by decide, C3_one_result_per_task 1 (by decide) (fun _ => 0)
    [(⟨0, "q", ["A"], "c", none⟩, Except.error "boom")]⟩

/-- The in-flight peaks never exceed the ceiling, given the loop starts
within it. -/
theorem engineSizes_le {α : Type} (C : Nat) (sched : Nat → Nat) (hC : 0 < C) :
    ∀ (queue pending : List α) (n : Nat), pending.length ≤ C →
      ∀ x ∈ engineSizes C sched n queue pending, x ≤ C := by
  intro queue
  induction queue with
  | nil =>
    intro pending n hp x hx
    simp [engineSizes] at hx
    omega
  | cons t q ih =>
    intro pending n hp x hx
    by_cases hc : C ≤ pending.length
    · have hlen : 0 < pending.length := by omega
      have hlt : sched n % pending.length < pending.length := Nat.mod_lt _ hlen
      have hsome : pending[sched n % pending.length]? =
          some pending[sched n % pending.length] := List.getElem?_eq_getElem hlt
      rw [engineSizes, if_pos hc] at hx
      simp only [hsome] at hx
      have hplen : (pending.eraseIdx (sched n % pending.length) ++ [t]).length ≤ C := by
        have := List.length_eraseIdx_add_one hlt
        simp only [List.length_append, List.length_cons, List.length_nil]
        omega
      simp only [List.mem_cons] at hx
      rcases hx with hx | hx
      · omega
      · exact ih _ (n + 1) hplen x hx
    · rw [engineSizes, if_neg hc] at hx
      have hplen : (pending ++ [t]).length ≤ C := by
        simp only [List.length_append, List.length_cons, List.length_nil]
        omega
      simp only [List.mem_cons] at hx
      rcases hx with hx | hx
      · omega
      · exact ih _ (n + 1) hplen x hx

/-- The semaphore counter always balances the holders. -/
theorem semReachable_counter (C : Nat) (tasks : List Nat) :
    ∀ s : SemState, SemReachable C tasks s →
      s.counter + s.holding.length = C := by
  intro s h
  induction h with
  | init => simp [semInit]
  | step hr hstep ih =>
    cases hstep with
    | acquire t hc ht =>
      simp only [List.length_cons]
      omega
    | release t ht =>
      have h1 := List.length_erase_of_mem ht
      have h2 := List.length_pos_of_mem ht
      simp only [h1]
      omega

/-- C9: the number of concurrently dispatched tasks never exceeds the
ceiling `C`: every peak of the engine's in-flight population is at most
`C` (admission waits for a completion first when at capacity), and in any
reachable state of a tuner trial the tasks inside the per-trial semaphore
number at most `C`. -/
theorem C9_concurrency_ceiling (C : Nat) (hC : 0 < C) (sched : Nat → Nat)
    (results : List EvaluationResult) (tasks : List Nat) (s : SemState)
    (hs : SemReachable C tasks s) :
    ((engineSizes C sched 0 results []).all fun x => decide (x ≤ C)) = true ∧
    s.holding.length ≤ C := by
  constructor
  · rw [List.all_eq_true]
    intro x hx
    simpa using engineSizes_le C sched hC results [] 0 (by simp) x hx
  · have := semReachable_counter C tasks s hs
    omega

/-- Witness for `C9_concurrency_ceiling`: ceiling 2, three demo results, and
the trial state reached after one task acquires the semaphore. -/
theorem C9_concurrency_ceiling_witness :
    0 < 2 ∧
    (((engineSizes 2 (fun _ => 0) 0 [demoResult 0, demoResult 1, demoResult 2] []).all
        fun x => decide (x ≤ 2)) = true ∧
      (SemState.mk 1 (([5, 6] : List Nat).erase 5) [5] []).holding.length ≤ 2) :=
  ⟨by decide,
    C9_concurrency_ceiling 2 (by decide) (fun _ => 0)
      [demoResult 0, demoResult 1, demoResult 2] [5, 6] _
      (SemReachable.step SemReachable.init
        (SemStep.acquire (semInit 2 [5, 6]) 5 (by decide) (by decide)))⟩

end CozyPipeline
